import Mathlib

/-!
Shallow embedding of `transcribe_excel_2_yaml.py` and
`transcribe_excel_2_yaml_filt.py` (class `AtualizadorDeAlarmes`), and proofs
of the specification's claims about the merge-and-conflict-resolution
pipeline.

The embedding models the two pipelines as pure functions:
* file contents are explicit values (`YamlFile`, `Row`, `ExcelSource`);
* `executarAtualizacao`/`executarAtualizacaoFilt` return `none` when the
  Python code returns without calling `_salvar_yaml`, and `some data` when
  `_salvar_yaml` would be called with `data` (the written list);
* Python scalars occurring in cells are modelled by `Scalar`
  (strings, booleans, integers), with `pyStr`, `pyStrip`, `pyLower`,
  `pyInt?` modelling `str()`, `str.strip()`, `str.lower()` and `int()`
  on the relevant value range.
-/

namespace ExcelToYaml

/-- A Python scalar value as it occurs in a spreadsheet cell or in the
`text1` field: a string, a boolean, or an integer. -/
inductive Scalar where
  | str (s : String)
  | bool (b : Bool)
  | int (n : ℤ)
deriving DecidableEq, Repr

/-- Model of Python `str()` on `Scalar`: strings pass through, booleans
print as `True`/`False`, integers in decimal (with a leading `-` when
negative). -/
def pyStr : Scalar → String
  | .str s => s
  | .bool true => "True"
  | .bool false => "False"
  | .int n => toString n

/-- The whitespace characters removed by Python `str.strip()` (ASCII range:
space, tab, newline, carriage return, vertical tab, form feed). -/
def pyIsSpace (c : Char) : Bool :=
  c = ' ' || c = '\t' || c = '\n' || c = '\r' || c = '\x0b' || c = '\x0c'

/-- Model of Python `str.strip()`: drop whitespace from both ends. -/
def pyStrip (s : String) : String :=
  String.mk (((s.data.dropWhile pyIsSpace).reverse.dropWhile pyIsSpace).reverse)

/-- Model of Python `str.lower()` on one character, covering the ASCII
letters and the Latin-1 uppercase letters (`À`–`Þ` except `×`), which is
the alphabet the program's tokens (`sim`, `não`) draw from. -/
def pyToLowerChar (c : Char) : Char :=
  if ('A' ≤ c && c ≤ 'Z') || (('À' ≤ c && c ≤ 'Þ') && c ≠ '×') then
    Char.ofNat (c.toNat + 32)
  else c

/-- Model of Python `str.lower()`. -/
def pyLower (s : String) : String :=
  String.mk (s.data.map pyToLowerChar)

/-- Parse a nonempty list of ASCII digits as a natural number; `none`
otherwise. -/
def parseDigits : List Char → Option ℕ
  | [] => none
  | cs =>
    if cs.all Char.isDigit then
      some (cs.foldl (fun a c => 10 * a + (c.toNat - 48)) 0)
    else none

/-- Model of Python `int()` on `Scalar`: integers pass through, booleans map
to `1`/`0`, and strings parse as an optionally signed decimal numeral after
trimming surrounding whitespace; any other string raises `ValueError`,
modelled as `none`. -/
def pyInt? : Scalar → Option ℤ
  | .int n => some n
  | .bool b => some (if b then 1 else 0)
  | .str s =>
    match (pyStrip s).data with
    | '-' :: rest => (parseDigits rest).map (fun n => -(n : ℤ))
    | '+' :: rest => (parseDigits rest).map (fun n => (n : ℤ))
    | cs => (parseDigits cs).map (fun n => (n : ℤ))

/-- The nested `text` group of an alarm record. -/
structure TextGroup where
  text : String
  text1 : Scalar
  text2 : String
deriving DecidableEq, Repr

/-- The nested `config` group of an alarm record. -/
structure ConfigGroup where
  config : String
  subconfig1 : String
  subconfig2 : String
deriving DecidableEq, Repr

/-- One alarm record, as constructed by `_carregar_alarmes_excel` and
persisted by `_salvar_yaml`. -/
structure AlarmRecord where
  alarm_id : ℤ
  name : String
  text : TextGroup
  config : ConfigGroup
deriving DecidableEq, Repr

/-- `_transformar_valor_booleano`: convert the value to string, strip
whitespace, lowercase; `"sim"` becomes `True`, `"não"` becomes `False`,
anything else is returned unchanged. -/
def transformarValorBooleano (valor : Scalar) : Scalar :=
  let valor_str := pyLower (pyStrip (pyStr valor))
  if valor_str = "sim" then .bool true
  else if valor_str = "não" then .bool false
  else valor

/-- A spreadsheet row in positional mode (`header=None`): the eight cells
`row[0]`–`row[7]` accessed by `_carregar_alarmes_excel` of
`transcribe_excel_2_yaml.py`. -/
structure Row where
  c0 : Scalar
  c1 : Scalar
  c2 : Scalar
  c3 : Scalar
  c4 : Scalar
  c5 : Scalar
  c6 : Scalar
  c7 : Scalar
deriving DecidableEq, Repr

/-- The ingestion errors of the spec's taxonomy produced by the two
`_carregar_alarmes_excel` variants (both report the error and return an
empty candidate list). -/
inductive LoadError where
  | malformedIdentifier
  | missingColumns (cols : List String)
deriving DecidableEq, Repr

/-- Build one alarm record from a positional row, as in the loop body of
`_carregar_alarmes_excel` (positional variant): `int(row[0])` may fail;
all other fields are read with `str(...)`, and the boolean transform is
applied to column 3. -/
def makeAlarm (row : Row) : Option AlarmRecord :=
  (pyInt? row.c0).map fun id_val =>
    { alarm_id := id_val
      name := pyStr row.c1
      text := { text := pyStr row.c2
                text1 := transformarValorBooleano row.c3
                text2 := pyStr row.c4 }
      config := { config := pyStr row.c5
                  subconfig1 := pyStr row.c6
                  subconfig2 := pyStr row.c7 } }

/-- `_carregar_alarmes_excel` (positional variant), with the outcome made
explicit: rows are processed in order and the first row whose identifier
is not numeric aborts the whole ingestion (`int` raises, the exception
handler takes over). -/
def carregarAlarmesExcel : List Row → Except LoadError (List AlarmRecord)
  | [] => .ok []
  | row :: rest =>
    match makeAlarm row with
    | none => .error .malformedIdentifier
    | some a => (carregarAlarmesExcel rest).map (fun l => a :: l)

/-- The value actually returned by the Python `_carregar_alarmes_excel`
(positional variant): the candidate list on success, `[]` on any error. -/
def carregarAlarmesExcelTotal (rows : List Row) : List AlarmRecord :=
  match carregarAlarmesExcel rows with
  | .ok l => l
  | .error _ => []

/-- Top-level structure of the destination YAML file's parsed content:
a list of alarm records, or anything that is not a list. -/
inductive YamlValue where
  | list (records : List AlarmRecord)
  | nonList
deriving DecidableEq, Repr

/-- The state of the destination file: absent, present but unparseable
(`yaml.YAMLError`), or present with parsed content. -/
inductive YamlFile where
  | missing
  | parseError
  | content (v : YamlValue)
deriving DecidableEq, Repr

/-- `_carregar_alarmes_yaml`: missing file, parse error, and non-list
content all yield the empty collection; a list is returned as-is. -/
def carregarAlarmesYaml : YamlFile → List AlarmRecord
  | .missing => []
  | .parseError => []
  | .content (.list records) => records
  | .content .nonList => []

/-- The while-loop probe of `executar_atualizacao`, with explicit fuel:
starting at `k`, increment while the current value is in `used`.
`probe` runs it with fuel `used.card`, which always suffices: each
increment steps past a distinct member of `used` (proved in
`probeAux_spec` / `probe_spec` below). -/
def probeAux (used : Finset ℤ) : ℕ → ℤ → ℤ
  | 0, k => k
  | fuel + 1, k => if k ∈ used then probeAux used fuel (k + 1) else k

/-- `id_novo_provisorio = id_alvo; while id_novo_provisorio in ids_em_uso:
id_novo_provisorio += 1`. -/
def probe (used : Finset ℤ) (k : ℤ) : ℤ :=
  probeAux used used.card k

/-- One iteration's identifier decision in `executar_atualizacao`: keep the
requested id when free, otherwise run the probe. -/
def assignId (used : Finset ℤ) (a : AlarmRecord) : ℤ :=
  if a.alarm_id ∈ used then probe used a.alarm_id else a.alarm_id

/-- The candidate-processing loop of `executar_atualizacao`: thread the
in-use set through the batch, adding each (possibly remapped) identifier
before the next candidate is processed. -/
def mergeLoop (used : Finset ℤ) : List AlarmRecord → List AlarmRecord
  | [] => []
  | a :: rest =>
    { a with alarm_id := assignId used a } :: mergeLoop (insert (assignId used a) used) rest

/-- The in-use set after the loop has consumed a list of candidates. -/
def usedAfter (used : Finset ℤ) : List AlarmRecord → Finset ℤ
  | [] => used
  | a :: rest => usedAfter (insert (assignId used a) used) rest

/-- The `alarm_id` column of a collection. -/
def idsList (l : List AlarmRecord) : List ℤ :=
  l.map AlarmRecord.alarm_id

/-- `ids_em_uso = \x7balarm['alarm_id'] for alarm in alarmes_existentes\x7d`. -/
def idsSet (l : List AlarmRecord) : Finset ℤ :=
  (idsList l).toFinset

/-- `lista_final = alarmes_existentes + alarmes_processados`. -/
def listaFinal (existentes novos : List AlarmRecord) : List AlarmRecord :=
  existentes ++ mergeLoop (idsSet existentes) novos

/-- `sorted(data, key=lambda k: k['alarm_id'])` in `_salvar_yaml` of the
base variant: a stable sort ascending by `alarm_id` (Python's `sorted` is
stable; so is insertion sort). -/
def sortByAlarmId (data : List AlarmRecord) : List AlarmRecord :=
  List.insertionSort (fun a b => a.alarm_id ≤ b.alarm_id) data

/-- `executar_atualizacao` of `transcribe_excel_2_yaml.py` as a pure
function from the two input files to the write it performs: `none` when it
returns without writing, `some data` when `_salvar_yaml` persists `data`
(which that variant sorts by `alarm_id`). -/
def executarAtualizacao (dest : YamlFile) (rows : List Row) : Option (List AlarmRecord) :=
  let alarmes_existentes := carregarAlarmesYaml dest
  let novos_alarmes := carregarAlarmesExcelTotal rows
  if novos_alarmes = [] then none
  else some (sortByAlarmId (listaFinal alarmes_existentes novos_alarmes))

/-- A spreadsheet row in named-column mode (`header=0, dtype=str`,
`fillna('')`): a finite map from column title to cell text. -/
structure NamedRow where
  cells : List (String × String)
deriving DecidableEq, Repr

/-- `row[col]` on a named row; columns are validated to exist before any
access, and `fillna('')` makes every present cell a string. -/
def NamedRow.get (r : NamedRow) (col : String) : String :=
  (r.cells.lookup col).getD ""

/-- The named-column spreadsheet as read by the filt variant: the header
titles (`df.columns`) and the data rows. -/
structure ExcelSource where
  headers : List String
  rows : List NamedRow
deriving DecidableEq, Repr

/-- `self.mapa_de_colunas` of `transcribe_excel_2_yaml_filt.py`. -/
def mapaDeColunas : List (String × String) :=
  [("alarm_id", "ID do Alarme"),
   ("name", "Nome do Alarme"),
   ("text", "Texto Principal"),
   ("text1", "Habilitado"),
   ("text2", "Ação Recomendada"),
   ("config", "Nível de Configuração"),
   ("subconfig1", "Sub-Config 1"),
   ("subconfig2", "Sub-Config 2")]

/-- `colunas_necessarias = self.mapa_de_colunas.values()`. -/
def colunasNecessarias : List String :=
  mapaDeColunas.map Prod.snd

/-- `self.mapa_de_colunas[field]`. -/
def colTitle (field : String) : String :=
  (mapaDeColunas.lookup field).getD ""

/-- `colunas_faltantes = [col for col in colunas_necessarias if col not in
df.columns]`. -/
def colunasFaltantes (src : ExcelSource) : List String :=
  colunasNecessarias.filter (fun col => !(src.headers.contains col))

/-- Build one alarm record from a named row, as in the loop body of
`_carregar_alarmes_excel` (filt variant): `int(row[mapa['alarm_id']])` may
fail; other fields are the cell strings, with the boolean transform on the
`text1` column. -/
def makeAlarmFilt (row : NamedRow) : Option AlarmRecord :=
  (pyInt? (.str (row.get (colTitle "alarm_id")))).map fun id_val =>
    { alarm_id := id_val
      name := row.get (colTitle "name")
      text := { text := row.get (colTitle "text")
                text1 := transformarValorBooleano (.str (row.get (colTitle "text1")))
                text2 := row.get (colTitle "text2") }
      config := { config := row.get (colTitle "config")
                  subconfig1 := row.get (colTitle "subconfig1")
                  subconfig2 := row.get (colTitle "subconfig2") } }

/-- The row loop of the filt `_carregar_alarmes_excel`: first malformed
identifier aborts the whole ingestion. -/
def carregarLinhasFilt : List NamedRow → Except LoadError (List AlarmRecord)
  | [] => .ok []
  | row :: rest =>
    match makeAlarmFilt row with
    | none => .error .malformedIdentifier
    | some a => (carregarLinhasFilt rest).map (fun l => a :: l)

/-- `_carregar_alarmes_excel` (filt variant): validate that every mapped
column title is present before constructing any record; then process the
rows. -/
def carregarAlarmesExcelFilt (src : ExcelSource) : Except LoadError (List AlarmRecord) :=
  if colunasFaltantes src = [] then carregarLinhasFilt src.rows
  else .error (.missingColumns (colunasFaltantes src))

/-- The value actually returned by the filt `_carregar_alarmes_excel`:
the candidate list on success, `[]` on any error. -/
def carregarAlarmesExcelFiltTotal (src : ExcelSource) : List AlarmRecord :=
  match carregarAlarmesExcelFilt src with
  | .ok l => l
  | .error _ => []

/-- `executar_atualizacao` of `transcribe_excel_2_yaml_filt.py`; its
`_salvar_yaml` writes the list in append order, without sorting. -/
def executarAtualizacaoFilt (dest : YamlFile) (src : ExcelSource) : Option (List AlarmRecord) :=
  let alarmes_existentes := carregarAlarmesYaml dest
  let novos_alarmes := carregarAlarmesExcelFiltTotal src
  if novos_alarmes = [] then none
  else some (listaFinal alarmes_existentes novos_alarmes)

/-- A record's fields other than `alarm_id`. -/
def sansId (a : AlarmRecord) : String × TextGroup × ConfigGroup :=
  (a.name, a.text, a.config)

/-! ### Concrete fixtures for scenarios -/

/-- A concrete alarm record with the given identifier and name. -/
def sampleRecord (i : ℤ) (nome : String) : AlarmRecord :=
  { alarm_id := i, name := nome,
    text := { text := "texto", text1 := .str "x", text2 := "t2" },
    config := { config := "cfg", subconfig1 := "s1", subconfig2 := "s2" } }

/-- A concrete positional row whose identifier cell holds `s0`. -/
def sampleRow (s0 : String) : Row :=
  { c0 := .str s0, c1 := .str "nome", c2 := .str "texto", c3 := .str "sim",
    c4 := .str "t2", c5 := .str "cfg", c6 := .str "s1", c7 := .str "s2" }

/-- A concrete named row whose identifier cell holds `id_cell`. -/
def sampleNamedRow (id_cell : String) : NamedRow :=
  { cells := [("ID do Alarme", id_cell), ("Nome do Alarme", "nome"),
              ("Texto Principal", "texto"), ("Habilitado", "sim"),
              ("Ação Recomendada", "t2"), ("Nível de Configuração", "cfg"),
              ("Sub-Config 1", "s1"), ("Sub-Config 2", "s2")] }

/-- A concrete named-column source with all configured titles present and
one row per requested identifier. -/
def sampleSource (ids : List String) : ExcelSource :=
  { headers := colunasNecessarias, rows := ids.map sampleNamedRow }

/-- A destination whose two records are stored in decreasing identifier
order: `[id 5, id 1]`. -/
def c2Dest : YamlFile :=
  .content (.list [sampleRecord 5 "a", sampleRecord 1 "b"])

/-- A named-column source missing the configured title `"ID do Alarme"`. -/
def c7Source : ExcelSource :=
  { headers := ["Nome do Alarme", "Texto Principal", "Habilitado",
                "Ação Recomendada", "Nível de Configuração",
                "Sub-Config 1", "Sub-Config 2"],
    rows := [] }

/-- The spec scenario's existing collection: `[{id:1}, {id:5}]`. -/
def c3Existentes : List AlarmRecord :=
  [sampleRecord 1 "a", sampleRecord 5 "b"]

/-- The spec scenario's first candidate, requesting id `5`. -/
def c3Cand5 : AlarmRecord := sampleRecord 5 "c"

/-- The spec scenario's second candidate, requesting id `6`. -/
def c3Cand6 : AlarmRecord := sampleRecord 6 "d"

/-! ### Properties of the probe -/

theorem probeAux_of_not_mem (used : Finset ℤ) (n : ℕ) (k : ℤ) (h : k ∉ used) :
    probeAux used n k = k := by
  cases n <;> simp [probeAux, h]

theorem probeAux_spec (used : Finset ℤ) :
    ∀ (m n : ℕ) (k : ℤ), m ≤ n →
      (∀ i : ℕ, i < m → k + (i : ℤ) ∈ used) → k + (m : ℤ) ∉ used →
      probeAux used n k = k + (m : ℤ)
  | 0, n, k, _, _, hfree => by
    have h : k ∉ used := by simpa using hfree
    simpa using probeAux_of_not_mem used n k h
  | m + 1, n, k, hmn, hin, hfree => by
    obtain ⟨n', rfl⟩ : ∃ n', n = n' + 1 := ⟨n - 1, by omega⟩
    have hk : k ∈ used := by simpa using hin 0 (by omega)
    have hin' : ∀ i : ℕ, i < m → (k + 1) + (i : ℤ) ∈ used := by
      intro i hi
      have h := hin (i + 1) (by omega)
      have he : k + ((i : ℕ) + 1 : ℕ) = (k + 1) + (i : ℤ) := by push_cast; ring
      rwa [he] at h
    have hfree' : (k + 1) + (m : ℤ) ∉ used := by
      intro hmem
      apply hfree
      have he : (k + 1) + (m : ℤ) = k + ((m : ℕ) + 1 : ℕ) := by push_cast; ring
      rwa [he] at hmem
    have hcast : k + ((m + 1 : ℕ) : ℤ) = (k + 1) + (m : ℤ) := by push_cast; ring
    rw [hcast]
    have step : probeAux used (n' + 1) k = probeAux used n' (k + 1) := by
      simp [probeAux, hk]
    rw [step]
    exact probeAux_spec used m n' (k + 1) (by omega) hin' hfree'

theorem le_card_of_forall_mem (used : Finset ℤ) (k : ℤ) (m : ℕ)
    (h : ∀ i : ℕ, i < m → k + (i : ℤ) ∈ used) : m ≤ used.card := by
  have hsub : ∀ i ∈ Finset.range m, k + (i : ℤ) ∈ used := fun i hi =>
    h i (Finset.mem_range.mp hi)
  have hinj : Set.InjOn (fun i : ℕ => k + (i : ℤ)) (Finset.range m) := by
    intro i _ j _ hij
    simp only at hij
    omega
  calc m = (Finset.range m).card := (Finset.card_range m).symm
  _ ≤ used.card := Finset.card_le_card_of_injOn _ hsub hinj

/-- Correctness of the probe: if `k, k+1, …, k+m-1` are all in use and
`k+m` is free, the probe started at `k` returns `k+m`. -/
theorem probe_spec (used : Finset ℤ) (k : ℤ) (m : ℕ)
    (hin : ∀ i : ℕ, i < m → k + (i : ℤ) ∈ used) (hfree : k + (m : ℤ) ∉ used) :
    probe used k = k + (m : ℤ) :=
  probeAux_spec used m used.card k (le_card_of_forall_mem used k m hin) hin hfree

theorem probe_exists_free (used : Finset ℤ) (k : ℤ) :
    ∃ i : ℕ, k + (i : ℤ) ∉ used := by
  by_contra hc
  push_neg at hc
  have := le_card_of_forall_mem used k (used.card + 1) (fun i _ => hc i)
  omega

/-- The probe always lands on an identifier that is not in use. -/
theorem probe_not_mem (used : Finset ℤ) (k : ℤ) : probe used k ∉ used := by
  classical
  have hex := probe_exists_free used k
  have hspec := Nat.find_spec hex
  have hmin : ∀ i : ℕ, i < Nat.find hex → k + (i : ℤ) ∈ used := by
    intro i hi
    exact not_not.mp (Nat.find_min hex hi)
  rw [probe_spec used k (Nat.find hex) hmin hspec]
  exact hspec

/-- The identifier assigned to a candidate is never one already in use. -/
theorem assignId_not_mem (used : Finset ℤ) (a : AlarmRecord) :
    assignId used a ∉ used := by
  unfold assignId
  split
  · exact probe_not_mem used a.alarm_id
  · assumption

/-! ### Properties of the merge loop -/

theorem mergeLoop_length (used : Finset ℤ) (l : List AlarmRecord) :
    (mergeLoop used l).length = l.length := by
  induction l generalizing used with
  | nil => rfl
  | cons a rest ih => simp [mergeLoop, ih]

/-- Every record emitted by the merge loop carries an identifier that was
not in use when the loop started. -/
theorem mergeLoop_not_mem (used : Finset ℤ) (l : List AlarmRecord) :
    ∀ r ∈ mergeLoop used l, r.alarm_id ∉ used := by
  induction l generalizing used with
  | nil => simp [mergeLoop]
  | cons a rest ih =>
    intro r hr
    rw [mergeLoop, List.mem_cons] at hr
    rcases hr with rfl | hr
    · exact assignId_not_mem used a
    · intro hmem
      exact ih (insert (assignId used a) used) r hr (Finset.mem_insert_of_mem hmem)

/-- The identifiers emitted by the merge loop are pairwise distinct. -/
theorem mergeLoop_nodup (used : Finset ℤ) (l : List AlarmRecord) :
    (idsList (mergeLoop used l)).Nodup := by
  induction l generalizing used with
  | nil => simp [mergeLoop, idsList]
  | cons a rest ih =>
    rw [mergeLoop, idsList, List.map_cons, List.nodup_cons]
    refine ⟨fun hmem => ?_, ih _⟩
    rw [List.mem_map] at hmem
    obtain ⟨r, hr, hid⟩ := hmem
    exact mergeLoop_not_mem _ rest r hr (hid ▸ Finset.mem_insert_self _ _)

theorem mergeLoop_append (used : Finset ℤ) (l₁ l₂ : List AlarmRecord) :
    mergeLoop used (l₁ ++ l₂)
      = mergeLoop used l₁ ++ mergeLoop (usedAfter used l₁) l₂ := by
  induction l₁ generalizing used with
  | nil => simp [mergeLoop, usedAfter]
  | cons a rest ih => simp [mergeLoop, usedAfter, ih]

/-- The merge loop only rewrites `alarm_id`: every other field of every
candidate is passed through unchanged, in order. -/
theorem mergeLoop_sansId (used : Finset ℤ) (l : List AlarmRecord) :
    (mergeLoop used l).map sansId = l.map sansId := by
  induction l generalizing used with
  | nil => rfl
  | cons a rest ih => simp [mergeLoop, sansId, ih]

/-! ### Properties of ingestion -/

theorem carregar_error_of_malformed :
    ∀ rows : List Row, (∃ r ∈ rows, pyInt? r.c0 = none) →
      carregarAlarmesExcel rows = .error .malformedIdentifier
  | [], h => by simp at h
  | row :: rest, h => by
    by_cases hrow : pyInt? row.c0 = none
    · simp [carregarAlarmesExcel, makeAlarm, hrow]
    · obtain ⟨r, hr, hnone⟩ := h
      rw [List.mem_cons] at hr
      rcases hr with rfl | hr
      · exact absurd hnone hrow
      · obtain ⟨v, hv⟩ := Option.ne_none_iff_exists'.mp hrow
        have ih := carregar_error_of_malformed rest ⟨r, hr, hnone⟩
        simp [carregarAlarmesExcel, makeAlarm, hv, ih, Except.map]

/-! ### Characterization of the pipeline outcomes -/

theorem executar_eq_some (dest : YamlFile) (rows : List Row) (out : List AlarmRecord)
    (h : executarAtualizacao dest rows = some out) :
    carregarAlarmesExcelTotal rows ≠ [] ∧
    out = sortByAlarmId
      (listaFinal (carregarAlarmesYaml dest) (carregarAlarmesExcelTotal rows)) := by
  by_cases hempty : carregarAlarmesExcelTotal rows = []
  · simp [executarAtualizacao, hempty] at h
  · refine ⟨hempty, ?_⟩
    simp only [executarAtualizacao, if_neg hempty, Option.some.injEq] at h
    exact h.symm

theorem executarFilt_eq_some (dest : YamlFile) (src : ExcelSource) (out : List AlarmRecord)
    (h : executarAtualizacaoFilt dest src = some out) :
    carregarAlarmesExcelFiltTotal src ≠ [] ∧
    out = listaFinal (carregarAlarmesYaml dest) (carregarAlarmesExcelFiltTotal src) := by
  by_cases hempty : carregarAlarmesExcelFiltTotal src = []
  · simp [executarAtualizacaoFilt, hempty] at h
  · refine ⟨hempty, ?_⟩
    simp only [executarAtualizacaoFilt, if_neg hempty, Option.some.injEq] at h
    exact h.symm

/-- The concatenated final list has pairwise distinct identifiers whenever
the existing collection does. -/
theorem listaFinal_ids_nodup (existentes novos : List AlarmRecord)
    (hnd : (idsList existentes).Nodup) :
    (idsList (listaFinal existentes novos)).Nodup := by
  rw [listaFinal, idsList, List.map_append, List.nodup_append]
  refine ⟨hnd, mergeLoop_nodup _ _, ?_⟩
  intro x hx hx2
  rw [List.mem_map] at hx2
  obtain ⟨r, hr, rfl⟩ := hx2
  exact mergeLoop_not_mem _ _ r hr (List.mem_toFinset.mpr hx)

/-! ### The claims -/

/-- C1, counterexample: with an existing collection whose records already
share identifier `1` and a candidate requesting `2`, the base pipeline
writes a list whose `alarm_id` values are not pairwise distinct — the
merge never deduplicates identifiers that were already duplicated in the
destination file. -/
theorem C1_counterexample :
    executarAtualizacao (.content (.list [sampleRecord 1 "a", sampleRecord 1 "b"]))
        [sampleRow "2"] ≠ none ∧
    ¬ (idsList ((executarAtualizacao
        (.content (.list [sampleRecord 1 "a", sampleRecord 1 "b"]))
        [sampleRow "2"]).getD [])).Nodup := by
  decide

/-- C1 (amended): for every existing collection whose `alarm_id` values are
pairwise distinct and every candidate batch, the list persisted by
`executar_atualizacao` has pairwise distinct `alarm_id` values. -/
theorem C1_distinct_ids (dest : YamlFile) (rows : List Row) (out : List AlarmRecord)
    (hnd : (idsList (carregarAlarmesYaml dest)).Nodup)
    (h : executarAtualizacao dest rows = some out) :
    (idsList out).Nodup := by
  obtain ⟨-, hout⟩ := executar_eq_some dest rows out h
  have hperm : List.Perm
      (sortByAlarmId
        (listaFinal (carregarAlarmesYaml dest) (carregarAlarmesExcelTotal rows)))
      (listaFinal (carregarAlarmesYaml dest) (carregarAlarmesExcelTotal rows)) :=
    List.perm_insertionSort _ _
  rw [hout, idsList]
  rw [List.Perm.nodup_iff (hperm.map AlarmRecord.alarm_id)]
  exact listaFinal_ids_nodup _ _ hnd

/-- C1 witness: a concrete run on the duplicate-free destination
`[id 1, id 5]` with one candidate requesting `5`. -/
theorem C1_witness :
    (idsList (carregarAlarmesYaml
        (.content (.list [sampleRecord 1 "a", sampleRecord 5 "b"])))).Nodup ∧
    (idsList ((executarAtualizacao
        (.content (.list [sampleRecord 1 "a", sampleRecord 5 "b"]))
        [sampleRow "5"]).getD [])).Nodup :=
  ⟨by decide,
   C1_distinct_ids (.content (.list [sampleRecord 1 "a", sampleRecord 5 "b"]))
     [sampleRow "5"]
     ((executarAtualizacao (.content (.list [sampleRecord 1 "a", sampleRecord 5 "b"]))
        [sampleRow "5"]).getD [])
     (by decide) (by decide)⟩

/-- C2, counterexample: the base variant's `_salvar_yaml` sorts by
`alarm_id`, so merging one candidate (id `2`) into the destination whose
records are stored as `[id 5, id 1]` performs a write in which the
pre-existing records appear as `[id 1, id 5]` — their relative order was
altered. -/
theorem C2_counterexample :
    executarAtualizacao c2Dest [sampleRow "2"] ≠ none ∧
    ((executarAtualizacao c2Dest [sampleRow "2"]).getD []).filter
        (fun r => decide (r.alarm_id ∈ idsList (carregarAlarmesYaml c2Dest)))
      ≠ carregarAlarmesYaml c2Dest := by
  decide

/-- C2 (amended): in the filt variant, which persists in append order, the
written output restricted to the existing records' identifiers is exactly
the existing collection — original `alarm_id` values, original relative
order. (The base variant re-sorts the whole list ascending by `alarm_id`
before persisting, so it preserves the relative order of pre-existing
records only when they were already sorted.) -/
theorem C2_order_preserved_filt (dest : YamlFile) (src : ExcelSource)
    (out : List AlarmRecord)
    (h : executarAtualizacaoFilt dest src = some out) :
    out.filter (fun r => decide (r.alarm_id ∈ idsList (carregarAlarmesYaml dest)))
      = carregarAlarmesYaml dest := by
  obtain ⟨-, hout⟩ := executarFilt_eq_some dest src out h
  rw [hout, listaFinal, List.filter_append]
  have h1 : (carregarAlarmesYaml dest).filter
      (fun r => decide (r.alarm_id ∈ idsList (carregarAlarmesYaml dest)))
      = carregarAlarmesYaml dest := by
    rw [List.filter_eq_self]
    intro r hr
    simp only [decide_eq_true_eq]
    exact List.mem_map_of_mem AlarmRecord.alarm_id hr
  have h2 : (mergeLoop (idsSet (carregarAlarmesYaml dest))
        (carregarAlarmesExcelFiltTotal src)).filter
      (fun r => decide (r.alarm_id ∈ idsList (carregarAlarmesYaml dest)))
      = [] := by
    rw [List.filter_eq_nil_iff]
    intro r hr
    simp only [decide_eq_true_eq]
    intro hmem
    exact mergeLoop_not_mem _ _ r hr (List.mem_toFinset.mpr hmem)
  rw [h1, h2, List.append_nil]

/-- C2 witness: a concrete filt-variant run against the `[id 5, id 1]`
destination with one candidate requesting `2`. -/
theorem C2_witness :
    ((executarAtualizacaoFilt c2Dest (sampleSource ["2"])).getD []).filter
        (fun r => decide (r.alarm_id ∈ idsList (carregarAlarmesYaml c2Dest)))
      = carregarAlarmesYaml c2Dest :=
  C2_order_preserved_filt c2Dest (sampleSource ["2"]) _ (by decide)

/-- C3: when the candidates are processed in batch order, a candidate
requesting identifier `k` is assigned exactly `k+m` whenever
`k, k+1, …, k+m-1` are all in the in-use set at its turn (seeded from the
existing records and grown by each earlier candidate's possibly remapped
identifier) and `k+m` is free; with `m = 0` this says a candidate whose
requested identifier is free keeps it unchanged. -/
theorem C3_probe_assignment (existentes pre post : List AlarmRecord)
    (a : AlarmRecord) (m : ℕ)
    (hin : ∀ i : ℕ, i < m →
      a.alarm_id + (i : ℤ) ∈ usedAfter (idsSet existentes) pre)
    (hfree : a.alarm_id + (m : ℤ) ∉ usedAfter (idsSet existentes) pre) :
    (listaFinal existentes (pre ++ a :: post))[existentes.length + pre.length]?
      = some { a with alarm_id := a.alarm_id + (m : ℤ) } := by
  have hassign : assignId (usedAfter (idsSet existentes) pre) a
      = a.alarm_id + (m : ℤ) := by
    rcases Nat.eq_zero_or_pos m with rfl | hm
    · have hnot : a.alarm_id ∉ usedAfter (idsSet existentes) pre := by
        simpa using hfree
      simp [assignId, hnot]
    · have hmem : a.alarm_id ∈ usedAfter (idsSet existentes) pre := by
        simpa using hin 0 hm
      rw [assignId, if_pos hmem]
      exact probe_spec _ a.alarm_id m hin hfree
  have hsplit : listaFinal existentes (pre ++ a :: post)
      = (existentes ++ mergeLoop (idsSet existentes) pre)
        ++ ({ a with alarm_id := assignId (usedAfter (idsSet existentes) pre) a }
            :: mergeLoop
              (insert (assignId (usedAfter (idsSet existentes) pre) a)
                (usedAfter (idsSet existentes) pre)) post) := by
    rw [listaFinal, mergeLoop_append, mergeLoop, List.append_assoc]
  have hlen : (existentes ++ mergeLoop (idsSet existentes) pre).length
      = existentes.length + pre.length := by
    rw [List.length_append, mergeLoop_length]
  rw [hsplit, List.getElem?_append_right (by omega), hlen, hassign]
  simp

/-- C3 witness: the spec scenario's second step — existing `[id 1, id 5]`,
the first candidate (requesting `5`) already processed and remapped to `6`,
the second candidate requests `6`; both `6` and the probe start are in use
and `7` is free, so it is assigned `7`. -/
theorem C3_witness :
    (∀ i : ℕ, i < 1 →
      c3Cand6.alarm_id + (i : ℤ) ∈ usedAfter (idsSet c3Existentes) [c3Cand5]) ∧
    c3Cand6.alarm_id + ((1 : ℕ) : ℤ) ∉ usedAfter (idsSet c3Existentes) [c3Cand5] ∧
    (listaFinal c3Existentes ([c3Cand5] ++ c3Cand6 :: []))[c3Existentes.length + 1]?
      = some { c3Cand6 with alarm_id := c3Cand6.alarm_id + ((1 : ℕ) : ℤ) } :=
  ⟨by decide, by decide,
   C3_probe_assignment c3Existentes [c3Cand5] [] c3Cand6 1 (by decide) (by decide)⟩

/-- C4: if any positional row's identifier cell is not numeric, ingestion
fails with `MalformedIdentifier`, the whole batch yields zero candidates,
and the destination file is not written. -/
theorem C4_malformed_aborts (dest : YamlFile) (rows : List Row)
    (h : ∃ r ∈ rows, pyInt? r.c0 = none) :
    carregarAlarmesExcel rows = .error .malformedIdentifier ∧
    carregarAlarmesExcelTotal rows = [] ∧
    executarAtualizacao dest rows = none := by
  have herr := carregar_error_of_malformed rows h
  have htot : carregarAlarmesExcelTotal rows = [] := by
    simp [carregarAlarmesExcelTotal, herr]
  exact ⟨herr, htot, by simp [executarAtualizacao, htot]⟩

/-- C4 witness: a batch of two rows whose second identifier cell holds
`"abc"` is aborted whole and nothing is written. -/
theorem C4_witness :
    (∃ r ∈ [sampleRow "1", sampleRow "abc"], pyInt? r.c0 = none) ∧
    executarAtualizacao (.content (.list [sampleRecord 1 "a"]))
      [sampleRow "1", sampleRow "abc"] = none :=
  ⟨by decide,
   (C4_malformed_aborts (.content (.list [sampleRecord 1 "a"]))
     [sampleRow "1", sampleRow "abc"] (by decide)).2.2⟩

/-- C5: the value transform maps any scalar whose stringification, trimmed
and lowercased, is `"sim"` to `True`, any whose is `"não"` to `False`, and
returns every other value unchanged; in particular `"sim"`, `" SIM "`,
`"Sim"` map to `True`, `"não"`, `"NÃO"` map to `False`, and `"talvez"`,
`"3"` come back unchanged. (It is a Lean function, hence pure.) -/
theorem C5_boolean_transform (v : Scalar) :
    (pyLower (pyStrip (pyStr v)) = "sim" → transformarValorBooleano v = .bool true) ∧
    (pyLower (pyStrip (pyStr v)) = "não" → transformarValorBooleano v = .bool false) ∧
    (pyLower (pyStrip (pyStr v)) ≠ "sim" → pyLower (pyStrip (pyStr v)) ≠ "não" →
      transformarValorBooleano v = v) ∧
    transformarValorBooleano (.str "sim") = .bool true ∧
    transformarValorBooleano (.str " SIM ") = .bool true ∧
    transformarValorBooleano (.str "Sim") = .bool true ∧
    transformarValorBooleano (.str "não") = .bool false ∧
    transformarValorBooleano (.str "NÃO") = .bool false ∧
    transformarValorBooleano (.str "talvez") = .str "talvez" ∧
    transformarValorBooleano (.str "3") = .str "3" := by
  refine ⟨fun h => ?_, fun h => ?_, fun h1 h2 => ?_,
    by decide, by decide, by decide, by decide, by decide, by decide, by decide⟩
  · simp [transformarValorBooleano, h]
  · simp [transformarValorBooleano, h]
  · simp [transformarValorBooleano, h1, h2]

/-- C5 witness: the transform at `" SIM "`, via the general clause. -/
theorem C5_witness : transformarValorBooleano (.str " SIM ") = .bool true :=
  (C5_boolean_transform (.str " SIM ")).1 (by decide)

/-- C6: when the candidate collection is empty, `executar_atualizacao`
returns before `_salvar_yaml`: no write is performed and the destination
file — whatever it holds — is left untouched. -/
theorem C6_no_write_on_empty (dest : YamlFile) (rows : List Row)
    (h : carregarAlarmesExcelTotal rows = []) :
    executarAtualizacao dest rows = none := by
  simp [executarAtualizacao, h]

/-- C6 witness: an empty spreadsheet against a two-record destination. -/
theorem C6_witness :
    carregarAlarmesExcelTotal [] = [] ∧
    executarAtualizacao (.content (.list [sampleRecord 1 "a", sampleRecord 2 "b"]))
      [] = none :=
  ⟨by decide,
   C6_no_write_on_empty (.content (.list [sampleRecord 1 "a", sampleRecord 2 "b"]))
     [] (by decide)⟩

/-- C7: in named-column mode, when one or more configured column titles are
absent from the source, ingestion fails up front with `MissingColumns`
naming exactly the missing titles, yields zero candidates, and the
destination file is not written. -/
theorem C7_missing_columns (dest : YamlFile) (src : ExcelSource)
    (h : colunasFaltantes src ≠ []) :
    carregarAlarmesExcelFilt src = .error (.missingColumns (colunasFaltantes src)) ∧
    carregarAlarmesExcelFiltTotal src = [] ∧
    executarAtualizacaoFilt dest src = none := by
  have herr : carregarAlarmesExcelFilt src
      = .error (.missingColumns (colunasFaltantes src)) := by
    rw [carregarAlarmesExcelFilt, if_neg h]
  have htot : carregarAlarmesExcelFiltTotal src = [] := by
    simp [carregarAlarmesExcelFiltTotal, herr]
  exact ⟨herr, htot, by simp [executarAtualizacaoFilt, htot]⟩

/-- C7 witness: a source missing exactly the title `"ID do Alarme"`. -/
theorem C7_witness :
    colunasFaltantes c7Source = ["ID do Alarme"] ∧
    executarAtualizacaoFilt (.content (.list [sampleRecord 1 "a"])) c7Source = none :=
  ⟨by decide,
   (C7_missing_columns (.content (.list [sampleRecord 1 "a"])) c7Source
     (by decide)).2.2⟩

/-- C8: a destination file whose top-level content is not a list loads as
the empty collection instead of failing, and the merge then behaves
exactly as it would against a destination holding an empty list. -/
theorem C8_corrupt_resets (rows : List Row) :
    carregarAlarmesYaml (.content .nonList) = [] ∧
    executarAtualizacao (.content .nonList) rows
      = executarAtualizacao (.content (.list [])) rows :=
  ⟨rfl, rfl⟩

/-- C9: conflict resolution touches at most `alarm_id` — the merged list
starts with the existing records unchanged field-for-field, and the
processed candidates that follow agree with the ingested candidates on
every field except possibly `alarm_id`, in order. -/
theorem C9_frame (existentes novos : List AlarmRecord) :
    (listaFinal existentes novos).take existentes.length = existentes ∧
    ((listaFinal existentes novos).drop existentes.length).map sansId
      = novos.map sansId := by
  constructor
  · rw [listaFinal, List.take_left]
  · rw [listaFinal, List.drop_left, mergeLoop_sansId]

/-- C10: whenever a write happens (the batch was non-empty), the persisted
list has exactly `len(existing) + len(candidates)` records. -/
theorem C10_length (dest : YamlFile) (rows : List Row) (out : List AlarmRecord)
    (h : executarAtualizacao dest rows = some out) :
    out.length = (carregarAlarmesYaml dest).length
      + (carregarAlarmesExcelTotal rows).length := by
  obtain ⟨-, hout⟩ := executar_eq_some dest rows out h
  rw [hout, sortByAlarmId, List.length_insertionSort, listaFinal,
    List.length_append, mergeLoop_length]

/-- C10 witness: two existing records and two candidates produce a
four-record write. -/
theorem C10_witness :
    ((executarAtualizacao (.content (.list [sampleRecord 1 "a", sampleRecord 5 "b"]))
        [sampleRow "5", sampleRow "6"]).getD []).length
      = (carregarAlarmesYaml
          (.content (.list [sampleRecord 1 "a", sampleRecord 5 "b"]))).length
        + (carregarAlarmesExcelTotal [sampleRow "5", sampleRow "6"]).length :=
  C10_length (.content (.list [sampleRecord 1 "a", sampleRecord 5 "b"]))
    [sampleRow "5", sampleRow "6"]
    ((executarAtualizacao (.content (.list [sampleRecord 1 "a", sampleRecord 5 "b"]))
        [sampleRow "5", sampleRow "6"]).getD [])
    (by decide)

end ExcelToYaml
